import Mathlib

set_option maxRecDepth 100000

/-!
Verification of the EAFC player scraper (`scraper.py`): a shallow embedding of
the JSON data model, the record flattener `extract_player_data`, the pagination
loop `fetch_all_players`, and the CSV writer `save_to_csv`, with theorems
settling the specification's claims.
-/

/-- JSON values as decoded by Python's `json` module (numbers modelled as
integers; the claims never depend on float semantics). An object is an
insertion-ordered association list, as Python dicts are. -/
inductive Json where
  | null : Json
  | bool : Bool → Json
  | num : Int → Json
  | str : String → Json
  | arr : List Json → Json
  | obj : List (String × Json) → Json

/-- Python truthiness (`bool(v)`) on JSON values: `None`, `False`, `0`, `""`,
`[]`, `{}` are falsy. -/
def isFalsy : Json → Bool
  | Json.null => true
  | Json.bool b => !b
  | Json.num n => n == 0
  | Json.str s => s == ""
  | Json.arr xs => xs.isEmpty
  | Json.obj kvs => kvs.isEmpty

/-- Lookup in a decoded object (Python `dict.__getitem__` presence: first
matching key; decoded JSON objects have unique keys). -/
def objGet (kvs : List (String × Json)) (k : String) : Option Json :=
  (kvs.find? (fun kv => kv.1 == k)).map (fun kv => kv.2)

/-- Python `d.get(k)` on a dict: `None` when the key is absent. -/
def getD0 (kvs : List (String × Json)) (k : String) : Json :=
  (objGet kvs k).getD Json.null

/-- Python `v or d`: `v` when truthy, else `d`. -/
def orElseJson (v d : Json) : Json :=
  if isFalsy v then d else v

/-- Python `for x in v`: lists yield their elements, strings their characters
(as one-character strings), dicts their keys; other values raise `TypeError`. -/
def pyIter : Json → Except String (List Json)
  | Json.arr xs => Except.ok xs
  | Json.str s => Except.ok (s.data.map (fun c => Json.str (String.singleton c)))
  | Json.obj kvs => Except.ok (kvs.map (fun kv => Json.str kv.1))
  | _ => Except.error "TypeError: not iterable"

/-- Python `x.get(k, d)`: dicts return the bound value or the default, every
other value raises `AttributeError` (only dicts have a `get` method). -/
def pyGetAttr (x : Json) (k : String) (d : Json) : Except String Json :=
  match x with
  | Json.obj kvs => Except.ok ((objGet kvs k).getD d)
  | _ => Except.error "AttributeError: get"

/-- Mapping a fallible function over a list, stopping at the first error: the
semantics of a Python `for` loop or comprehension whose body may raise. -/
def mapExcept (f : α → Except ε β) : List α → Except ε (List β)
  | [] => Except.ok []
  | a :: l => do
    let b ← f a
    let bs ← mapExcept f l
    Except.ok (b :: bs)

/-- Python `sep.join(xs)`: every element must be a string, else `TypeError`. -/
def pyJoin (sep : String) (xs : List Json) : Except String String := do
  let ss ← mapExcept (fun x =>
    match x with
    | Json.str s => Except.ok s
    | _ => Except.error "TypeError: join of non-str") xs
  Except.ok (String.intercalate sep ss)

/-- Python `v.items()`: dicts yield their key-value pairs in insertion order,
every other value raises `AttributeError`. -/
def pyItems : Json → Except String (List (String × Json))
  | Json.obj kvs => Except.ok kvs
  | _ => Except.error "AttributeError: items"

/-- A flattened row: Python's `extracted` dict, insertion-ordered. -/
abbrev Row : Type := List (String × Json)

/-- The key set of a row, in insertion order (`dict.keys()`). -/
def rowKeys (r : Row) : List String :=
  r.map (fun kv => kv.1)

/-- Lookup of a column's value in a row (`dict.__getitem__` presence). -/
def rowGet (r : Row) (k : String) : Option Json :=
  (r.find? (fun kv => kv.1 == k)).map (fun kv => kv.2)

/-- Python `d[k] = v` on an insertion-ordered dict: update in place when the
key exists, else append. -/
def dictInsert (r : Row) (k : String) (v : Json) : Row :=
  if r.any (fun kv => kv.1 == k) then
    r.map (fun kv => if kv.1 == k then (k, v) else kv)
  else
    r ++ [(k, v)]

/-- One iteration of the stats loop of `extract_player_data`
(`scraper.py` lines 99-101): a stat contributes the column `stat_<name>`
exactly when its data is a dict containing the key `value`. -/
def applyStat (r : Row) (p : String × Json) : Row :=
  match p.2 with
  | Json.obj sd =>
    match objGet sd "value" with
    | some v => dictInsert r ("stat_" ++ p.1) v
    | none => r
  | _ => r

/-- The list comprehension `[x.get(key, '') for x in elems if x]` used for the
alternate-position and ability lists (`scraper.py` lines 73, 78, 79). -/
def comprehendLabels (elems : List Json) (key : String) :
    Except String (List Json) :=
  mapExcept (fun x => pyGetAttr x key (Json.str ""))
    (elems.filter (fun x => !isFalsy x))

/-- The expression `'|'.join(labels) if labels else ''`
(`scraper.py` lines 74, 80, 81). -/
def joinOrEmpty (labels : List Json) : Except String String :=
  if labels.isEmpty then Except.ok "" else pyJoin "|" labels

/-- The `extracted` dict just before the stats loop (`scraper.py` lines
57-95): the 11 scalar columns read from the record, then the derived columns
in assignment order. -/
def baseRow (kvs : List (String × Json))
    (altCol abLabCol abImgCol : String)
    (natLabel natImage teamLabel teamImage posShort : Json) : Row := [
  ("id", getD0 kvs "id"),
  ("overall_rating", getD0 kvs "overallRating"),
  ("first_name", getD0 kvs "firstName"),
  ("last_name", getD0 kvs "lastName"),
  ("common_name", getD0 kvs "commonName"),
  ("skill_moves", getD0 kvs "skillMoves"),
  ("weak_foot", getD0 kvs "weakFootAbility"),
  ("preferred_foot", getD0 kvs "preferredFoot"),
  ("league_name", getD0 kvs "leagueName"),
  ("avatar_url", getD0 kvs "avatarUrl"),
  ("shield_url", getD0 kvs "shieldUrl"),
  ("alternate_positions", Json.str altCol),
  ("player_abilities_labels", Json.str abLabCol),
  ("player_abilities_images", Json.str abImgCol),
  ("nationality_label", natLabel),
  ("nationality_image_url", natImage),
  ("team_label", teamLabel),
  ("team_image_url", teamImage),
  ("position_short_label", posShort)]

/-- `extract_player_data` (`scraper.py` lines 55-103), flattening one raw
record. Python exceptions (`AttributeError`/`TypeError` on type-malformed
fields) are modelled as `Except.error`. Field accesses and assignments follow
the source order. -/
def extract_player_data (player : Json) : Except String Row :=
  match player with
  | Json.obj kvs => do
    let altElems ← pyIter (orElseJson (getD0 kvs "alternatePositions") (Json.arr []))
    let altLabels ← comprehendLabels altElems "shortLabel"
    let altCol ← joinOrEmpty altLabels
    let abElems ← pyIter (orElseJson (getD0 kvs "playerAbilities") (Json.arr []))
    let abLabels ← comprehendLabels abElems "label"
    let abImages ← comprehendLabels abElems "imageUrl"
    let abLabCol ← joinOrEmpty abLabels
    let abImgCol ← joinOrEmpty abImages
    let nat := orElseJson (getD0 kvs "nationality") (Json.obj [])
    let natLabel ← pyGetAttr nat "label" (Json.str "")
    let natImage ← pyGetAttr nat "imageUrl" (Json.str "")
    let team := orElseJson (getD0 kvs "team") (Json.obj [])
    let teamLabel ← pyGetAttr team "label" (Json.str "")
    let teamImage ← pyGetAttr team "imageUrl" (Json.str "")
    let pos := orElseJson (getD0 kvs "position") (Json.obj [])
    let posShort ← pyGetAttr pos "shortLabel" (Json.str "")
    let statPairs ← pyItems (orElseJson (getD0 kvs "stats") (Json.obj []))
    Except.ok (statPairs.foldl applyStat
      (baseRow kvs altCol abLabCol abImgCol natLabel natImage teamLabel
        teamImage posShort))
  | _ => Except.error "AttributeError: get"

/-- The row `extract_player_data` produces for the empty record `{}`: `None`
for every scalar column, the empty string for every derived column. -/
def defaultRow : Row := [
  ("id", Json.null),
  ("overall_rating", Json.null),
  ("first_name", Json.null),
  ("last_name", Json.null),
  ("common_name", Json.null),
  ("skill_moves", Json.null),
  ("weak_foot", Json.null),
  ("preferred_foot", Json.null),
  ("league_name", Json.null),
  ("avatar_url", Json.null),
  ("shield_url", Json.null),
  ("alternate_positions", Json.str ""),
  ("player_abilities_labels", Json.str ""),
  ("player_abilities_images", Json.str ""),
  ("nationality_label", Json.str ""),
  ("nationality_image_url", Json.str ""),
  ("team_label", Json.str ""),
  ("team_image_url", Json.str ""),
  ("position_short_label", Json.str "")]

/-- The statically-known output columns of the flattener: the 11 scalar
top-level columns, the 3 list-derived columns, and the 5 single-object-derived
columns. -/
def staticColumns : List String :=
  ["id", "overall_rating", "first_name", "last_name", "common_name",
   "skill_moves", "weak_foot", "preferred_foot", "league_name", "avatar_url",
   "shield_url", "alternate_positions", "player_abilities_labels",
   "player_abilities_images", "nationality_label", "nationality_image_url",
   "team_label", "team_image_url", "position_short_label"]

/-- The row a successful extraction yields (the empty row otherwise); used to
state concrete facts about extraction results. -/
def extractedRow (p : Json) : Row :=
  ((extract_player_data p).toOption).getD []

/-- Outcome of one HTTP round trip inside `fetch_page`
(`scraper.py` lines 44-53): `httpx` transport/status errors are caught as
`httpx.HTTPError`, body decoding errors as `json.JSONDecodeError`, otherwise
the decoded body is returned. -/
inductive HttpOutcome where
  | transportError : HttpOutcome
  | parseError : HttpOutcome
  | parsed : Json → HttpOutcome

/-- `fetch_page` (`scraper.py` lines 35-53): `None` on a transport or parse
error, the decoded body otherwise. -/
def fetch_page : HttpOutcome → Option Json
  | HttpOutcome.transportError => none
  | HttpOutcome.parseError => none
  | HttpOutcome.parsed j => some j

/-- The fixed page size requested by the pagination loop
(`scraper.py` line 109). -/
def limit : Nat := 100

/-- What one iteration of the `while True` loop of `fetch_all_players`
(`scraper.py` lines 114-143) decides for one fetched page. -/
inductive PageStep where
  /-- `if not data`: failure diagnostic, break (`lines 118-120`). -/
  | fetchFail : PageStep
  /-- `if not items`: "no more items", break (`lines 123-125`). -/
  | noItems : PageStep
  /-- short page: append its rows, break (`lines 128-138`). -/
  | lastPage : List Row → PageStep
  /-- full page: append its rows, advance the offset, continue
  (`lines 128-140`). -/
  | fullPage : List Row → PageStep
  /-- an uncaught Python exception while processing the page. -/
  | errorStep : String → PageStep

/-- The body of one iteration of the pagination loop, on the result of
`fetch_page` for the current offset. -/
def pageStep (r : Option Json) : PageStep :=
  match r with
  | none => PageStep.fetchFail
  | some d =>
    if isFalsy d then PageStep.fetchFail
    else match d with
      | Json.obj kvs =>
        let items := (objGet kvs "items").getD (Json.arr [])
        if isFalsy items then PageStep.noItems
        else match pyIter items with
          | Except.error e => PageStep.errorStep e
          | Except.ok ps =>
            match mapExcept extract_player_data ps with
            | Except.error e => PageStep.errorStep e
            | Except.ok newRows =>
              if ps.length < limit then PageStep.lastPage newRows
              else PageStep.fullPage newRows
      | _ => PageStep.errorStep "AttributeError: get"

/-- The state the pagination loop ends in: the accumulated `players_data`,
the number of fetches issued, and whether the "Failed to fetch data"
diagnostic was printed. -/
structure FetchState where
  rows : List Row
  fetches : Nat
  fetchFailed : Bool

/-- `fetch_all_players` (`scraper.py` lines 105-145) over an upstream response
sequence: the k-th list element is what `fetch_page` returns for the k-th
fetch (offset `100 * k`). The loop consumes responses until a page stops it;
an exhausted sequence also ends the recursion. -/
def fetch_all_players : List (Option Json) → List Row → Nat →
    Except String FetchState
  | [], acc, n => Except.ok ⟨acc, n, false⟩
  | r :: rest, acc, n =>
    match pageStep r with
    | PageStep.fetchFail => Except.ok ⟨acc, n + 1, true⟩
    | PageStep.noItems => Except.ok ⟨acc, n + 1, false⟩
    | PageStep.lastPage rows => Except.ok ⟨acc ++ rows, n + 1, false⟩
    | PageStep.fullPage rows => fetch_all_players rest (acc ++ rows) (n + 1)
    | PageStep.errorStep e => Except.error e

/-- Running the whole pagination phase from the initial state
(`offset = 0`, empty `players_data`). -/
def run_fetch (resps : List (Option Json)) : Except String FetchState :=
  fetch_all_players resps [] 0

/-- All unique field names across the rows (`scraper.py` lines 154-156):
the set of keys of all rows, here as a duplicate-free list. -/
def all_fields (rows : List Row) : List String :=
  (rows.foldl (fun acc r => acc ++ rowKeys r) []).dedup

/-- `sorted(list(all_fields))` (`scraper.py` line 159): the lexicographically
sorted column list. -/
def fieldnames (rows : List Row) : List String :=
  List.insertionSort (fun a b => a ≤ b) (all_fields rows)

/-- The value `csv.DictWriter` writes for column `k` of row `r`: the row's
value when the key is present, the empty-string `restval` otherwise. -/
def csvField (r : Row) (k : String) : Json :=
  ((r.find? (fun kv => kv.1 == k)).map (fun kv => kv.2)).getD (Json.str "")

/-- `save_to_csv` (`scraper.py` lines 147-170): `none` when no file is
written (empty row set), otherwise the written file as its header record and
its data records. -/
def save_to_csv (rows : List Row) : Option (List String × List (List Json)) :=
  if rows.isEmpty then none
  else
    some (fieldnames rows,
      rows.map (fun r => (fieldnames rows).map (fun k => csvField r k)))

/-- `run` (`scraper.py` lines 172-175): fetch everything, then save. -/
def run (resps : List (Option Json)) :
    Except String (FetchState × Option (List String × List (List Json))) := do
  let st ← run_fetch resps
  Except.ok (st, save_to_csv st.rows)

/-- A well-typed page of `k` empty records, as the upstream would serve it. -/
def mkPage (k : Nat) : Json :=
  Json.obj [("items", Json.arr (List.replicate k (Json.obj [])))]

/-- A list element the comprehensions of the flattener accept: falsy elements
are filtered out; truthy elements must be dicts whose listed label keys, when
present, are bound to strings (so that `'|'.join` succeeds). -/
def wtElem (x : Json) (ks : List String) : Bool :=
  isFalsy x ||
  (match x with
   | Json.obj xk => ks.all (fun k =>
       match objGet xk k with
       | some (Json.str _) => true
       | some _ => false
       | none => true)
   | _ => false)

/-- A list-of-object field the flattener handles without an exception: absent
or falsy (replaced by `[]` via `or []`), or a list of acceptable elements. -/
def wtListField (v : Json) (ks : List String) : Bool :=
  match v with
  | Json.arr xs => xs.all (fun x => wtElem x ks)
  | _ => isFalsy v

/-- A single-object field the flattener handles without an exception: absent
or falsy (replaced by `{}` via `or {}`), or a dict. -/
def wtDictField (v : Json) : Bool :=
  match v with
  | Json.obj _ => true
  | _ => isFalsy v

/-- A raw record on which `extract_player_data` raises no exception: a dict
whose nested container fields, when present and truthy, have the container
types the code expects. Scalar top-level fields and the entries of `stats`
are unconstrained (the code guards them). -/
def wtPlayer (p : Json) : Bool :=
  match p with
  | Json.obj kvs =>
    wtListField (getD0 kvs "alternatePositions") ["shortLabel"] &&
    wtListField (getD0 kvs "playerAbilities") ["label", "imageUrl"] &&
    wtDictField (getD0 kvs "nationality") &&
    wtDictField (getD0 kvs "team") &&
    wtDictField (getD0 kvs "position") &&
    wtDictField (getD0 kvs "stats")
  | _ => false

/-- The column a stat entry contributes, if any (`scraper.py` lines 99-101). -/
def statPair (p : String × Json) : Option (String × Json) :=
  match p.2 with
  | Json.obj sd => (objGet sd "value").map (fun v => ("stat_" ++ p.1, v))
  | _ => none

/-! ### Helper lemmas -/

theorem ok_bind {ε α β : Type} (x : α) (f : α → Except ε β) :
    (Except.ok x : Except ε α) >>= f = f x := rfl

theorem mapExcept_nil {α β ε : Type} (f : α → Except ε β) :
    mapExcept f [] = Except.ok [] := rfl

theorem mapExcept_cons {α β ε : Type} (f : α → Except ε β) (a : α) (l : List α) :
    mapExcept f (a :: l) =
      f a >>= fun b => mapExcept f l >>= fun bs => Except.ok (b :: bs) := rfl

/-- If every element maps to a string value, the comprehension succeeds and
returns a list of strings. -/
theorem mapExcept_str_ok {f : Json → Except String Json} :
    ∀ {xs : List Json}, (∀ x ∈ xs, ∃ s, f x = Except.ok (Json.str s)) →
      ∃ ls : List String, mapExcept f xs = Except.ok (ls.map Json.str)
  | [], _ => ⟨[], rfl⟩
  | a :: l, h => by
    obtain ⟨s, hs⟩ := h a (List.mem_cons_self a l)
    obtain ⟨ls, hls⟩ := mapExcept_str_ok (fun x hx => h x (List.mem_cons_of_mem a hx))
    exact ⟨s :: ls, by rw [mapExcept_cons, hs, ok_bind, hls, ok_bind, List.map_cons]⟩

/-- A pointwise-successful map succeeds with the related outputs. -/
theorem mapExcept_ok_of_forall₂ {α γ ε : Type} {f : α → Except ε Json}
    {g : γ → Json} :
    ∀ {xs : List α} {ys : List γ},
      List.Forall₂ (fun x y => f x = Except.ok (g y)) xs ys →
      mapExcept f xs = Except.ok (ys.map g)
  | [], [], List.Forall₂.nil => rfl
  | _ :: _, _ :: _, List.Forall₂.cons h hs => by
    rw [mapExcept_cons, h, ok_bind, mapExcept_ok_of_forall₂ hs, ok_bind]
    rfl

theorem pyJoin_map_str (sep : String) :
    ∀ ls : List String, pyJoin sep (ls.map Json.str) =
      Except.ok (String.intercalate sep ls) := by
  have hm : ∀ ls : List String,
      mapExcept (fun x => match x with
        | Json.str s => Except.ok s
        | _ => (Except.error "TypeError: join of non-str" : Except String String))
        (ls.map Json.str) = Except.ok ls := by
    intro ls
    induction ls with
    | nil => rfl
    | cons s l ih => rw [List.map_cons, mapExcept_cons, ih]; rfl
  intro ls
  simp only [pyJoin, hm, ok_bind]

theorem joinOrEmpty_map_str (ls : List String) :
    joinOrEmpty (ls.map Json.str) = Except.ok (String.intercalate "|" ls) := by
  cases ls with
  | nil => rfl
  | cons s l => rw [joinOrEmpty, if_neg (by simp), pyJoin_map_str]

/-- The first five characters of a stat column name. -/
theorem statKey_take (n : String) : ("stat_" ++ n).data.take 5 = "stat_".data := by
  rw [String.data_append]
  have h5 : "stat_".data.length = 5 := rfl
  rw [← h5, List.take_left]

/-- A stat column name differs from every name that does not start with
`stat_`. -/
theorem statKey_ne {k : String} (hk : k.data.take 5 ≠ "stat_".data)
    (n : String) : "stat_" ++ n ≠ k :=
  fun h => hk (h ▸ statKey_take n)

theorem statKey_inj {a b : String} (h : "stat_" ++ a = "stat_" ++ b) : a = b := by
  have hd := congrArg String.data h
  rw [String.data_append, String.data_append] at hd
  exact String.ext (List.append_cancel_left hd)

theorem static_not_stat : ∀ k ∈ staticColumns, k.data.take 5 ≠ "stat_".data := by
  decide

theorem statKey_not_static (n : String) : ¬ ("stat_" ++ n) ∈ staticColumns :=
  fun h => absurd (statKey_take n) (static_not_stat _ h)

theorem updateFst (kv : String × Json) (k' : String) (v : Json) :
    (if kv.1 == k' then (k', v) else kv).1 = kv.1 := by
  by_cases h : kv.1 = k'
  · rw [if_pos (beq_iff_eq.mpr h), h]
  · rw [if_neg (by simp [h])]

theorem rowGet_map_update (r : Row) {k k' : String} (v : Json) (h : k' ≠ k) :
    rowGet (r.map (fun kv => if kv.1 == k' then (k', v) else kv)) k =
      rowGet r k := by
  induction r with
  | nil => rfl
  | cons kv r ih =>
    by_cases hpk : kv.1 = k
    · have hbk : (kv.1 == k) = true := beq_iff_eq.mpr hpk
      have hne : ¬ ((kv.1 == k') = true) := by
        rw [beq_iff_eq, hpk]
        exact fun he => h he.symm
      rw [List.map_cons, if_neg hne]
      simp only [rowGet, List.find?_cons, hbk]
    · have hbk : (kv.1 == k) = false := beq_eq_false_iff_ne.mpr hpk
      have h2 : ((if kv.1 == k' then (k', v) else kv).1 == k) = false := by
        rw [updateFst]; exact hbk
      simp only [rowGet, List.map_cons, List.find?_cons, h2, hbk]
      exact ih

theorem rowGet_append_single (r : Row) {k k' : String} (v : Json) (h : k' ≠ k) :
    rowGet (r ++ [(k', v)]) k = rowGet r k := by
  induction r with
  | nil =>
    have hk' : (k' == k) = false := beq_eq_false_iff_ne.mpr h
    simp [rowGet, List.find?_cons, hk']
  | cons kv r ih =>
    cases hk2 : (kv.1 == k) with
    | true => simp [rowGet, List.find?_cons, hk2]
    | false =>
      simp only [rowGet, List.cons_append, List.find?_cons, hk2]
      exact ih

theorem rowGet_dictInsert_ne (r : Row) {k k' : String} (v : Json) (h : k' ≠ k) :
    rowGet (dictInsert r k' v) k = rowGet r k := by
  unfold dictInsert
  split
  · exact rowGet_map_update r v h
  · exact rowGet_append_single r v h

theorem rowKeys_map_update (r : Row) (k' : String) (v : Json) :
    rowKeys (r.map (fun kv => if kv.1 == k' then (k', v) else kv)) = rowKeys r := by
  induction r with
  | nil => rfl
  | cons kv r ih =>
    simp only [rowKeys, List.map_cons] at *
    rw [updateFst, ih]

theorem mem_rowKeys_dictInsert (r : Row) (k' : String) (v : Json) {k : String}
    (h : k ∈ rowKeys r) : k ∈ rowKeys (dictInsert r k' v) := by
  unfold dictInsert
  split
  · rw [rowKeys_map_update]; exact h
  · rw [rowKeys, List.map_append]; exact List.mem_append_left _ h

theorem rowGet_applyStat_ne (r : Row) (p : String × Json) {k : String}
    (hk : k.data.take 5 ≠ "stat_".data) :
    rowGet (applyStat r p) k = rowGet r k := by
  obtain ⟨n, d⟩ := p
  cases d with
  | obj sd =>
    cases h : objGet sd "value" with
    | none => simp [applyStat, h]
    | some v =>
      have ha : applyStat r (n, Json.obj sd) = dictInsert r ("stat_" ++ n) v := by
        simp [applyStat, h]
      rw [ha]
      exact rowGet_dictInsert_ne r v (statKey_ne hk n)
  | null => rfl
  | bool b => rfl
  | num m => rfl
  | str s => rfl
  | arr xs => rfl

theorem rowGet_foldl_applyStat (l : List (String × Json)) (r : Row) {k : String}
    (hk : k.data.take 5 ≠ "stat_".data) :
    rowGet (l.foldl applyStat r) k = rowGet r k := by
  induction l generalizing r with
  | nil => rfl
  | cons p l ih => rw [List.foldl_cons, ih, rowGet_applyStat_ne r p hk]

theorem mem_rowKeys_applyStat (r : Row) (p : String × Json) {k : String}
    (h : k ∈ rowKeys r) : k ∈ rowKeys (applyStat r p) := by
  obtain ⟨n, d⟩ := p
  cases d with
  | obj sd =>
    cases hv : objGet sd "value" with
    | none => simpa [applyStat, hv] using h
    | some v =>
      have ha : applyStat r (n, Json.obj sd) = dictInsert r ("stat_" ++ n) v := by
        simp [applyStat, hv]
      rw [ha]
      exact mem_rowKeys_dictInsert r _ v h
  | null => exact h
  | bool b => exact h
  | num m => exact h
  | str s => exact h
  | arr xs => exact h

theorem mem_rowKeys_foldl_applyStat (l : List (String × Json)) (r : Row)
    {k : String} (h : k ∈ rowKeys r) : k ∈ rowKeys (l.foldl applyStat r) := by
  induction l generalizing r with
  | nil => exact h
  | cons p l ih => exact ih _ (mem_rowKeys_applyStat r p h)

theorem orElseJson_of_falsy {v d : Json} (h : isFalsy v = true) :
    orElseJson v d = d := by
  unfold orElseJson
  rw [if_pos h]

theorem orElseJson_of_truthy {v d : Json} (h : isFalsy v = false) :
    orElseJson v d = v := by
  unfold orElseJson
  rw [if_neg (by rw [h]; exact Bool.false_ne_true)]

/-- `alt_positions or []` always iterates to the raw list when the field is a
list (an empty list is falsy and replaced by `[]`, which iterates the same). -/
theorem pyIter_orElse_arr (xs : List Json) :
    pyIter (orElseJson (Json.arr xs) (Json.arr [])) = Except.ok xs := by
  cases hxs : isFalsy (Json.arr xs) with
  | false => rw [orElseJson_of_truthy hxs]; rfl
  | true =>
    have hnil : xs = [] := List.isEmpty_iff.mp (by simpa [isFalsy] using hxs)
    rw [orElseJson_of_falsy hxs, hnil]; rfl

theorem wtListField_falsy {v : Json} {ks : List String}
    (h : wtListField v ks = true) (hna : ∀ xs, v ≠ Json.arr xs) :
    isFalsy v = true := by
  cases v with
  | arr xs => exact absurd rfl (hna xs)
  | null => rfl
  | bool b => simpa [wtListField] using h
  | num m => simpa [wtListField] using h
  | str s => simpa [wtListField] using h
  | obj kvs => simpa [wtListField] using h

theorem wtDictField_falsy {v : Json} (h : wtDictField v = true)
    (hno : ∀ kvs, v ≠ Json.obj kvs) : isFalsy v = true := by
  cases v with
  | obj kvs => exact absurd rfl (hno kvs)
  | null => rfl
  | bool b => simpa [wtDictField] using h
  | num m => simpa [wtDictField] using h
  | str s => simpa [wtDictField] using h
  | arr xs => simpa [wtDictField] using h

theorem wtElem_get {x : Json} {ks : List String} (hx : wtElem x ks = true)
    (ht : isFalsy x = false) {key : String} (hk : key ∈ ks) :
    ∃ s, pyGetAttr x key (Json.str "") = Except.ok (Json.str s) := by
  cases x with
  | obj xk =>
    have hall : (match objGet xk key with
        | some (Json.str _) => true
        | some _ => false
        | none => true) = true := by
      have hx' : (ks.all fun k =>
          match objGet xk k with
          | some (Json.str _) => true
          | some _ => false
          | none => true) = true := by
        simpa [wtElem, ht] using hx
      exact List.all_eq_true.mp hx' key hk
    cases hv : objGet xk key with
    | none =>
      refine ⟨"", ?_⟩
      show Except.ok ((objGet xk key).getD (Json.str "")) = _
      rw [hv]
      rfl
    | some v =>
      cases v with
      | str s =>
        refine ⟨s, ?_⟩
        show Except.ok ((objGet xk key).getD (Json.str "")) = _
        rw [hv]
        rfl
      | null => rw [hv] at hall; simp at hall
      | bool b => rw [hv] at hall; simp at hall
      | num m => rw [hv] at hall; simp at hall
      | arr ys => rw [hv] at hall; simp at hall
      | obj kv2 => rw [hv] at hall; simp at hall
  | null => simp [wtElem, ht] at hx
  | bool b => simp [wtElem, ht] at hx
  | num m => simp [wtElem, ht] at hx
  | str s => simp [wtElem, ht] at hx
  | arr ys => simp [wtElem, ht] at hx

theorem wtListField_elems {v : Json} {ks : List String}
    (h : wtListField v ks = true) :
    ∃ elems, pyIter (orElseJson v (Json.arr [])) = Except.ok elems ∧
      ∀ x ∈ elems, wtElem x ks = true := by
  by_cases harr : ∃ xs, v = Json.arr xs
  · obtain ⟨xs, rfl⟩ := harr
    exact ⟨xs, pyIter_orElse_arr xs,
      List.all_eq_true.mp (by simpa [wtListField] using h)⟩
  · have hf := wtListField_falsy h (fun xs he => harr ⟨xs, he⟩)
    exact ⟨[], by rw [orElseJson_of_falsy hf]; rfl, by simp⟩

theorem comprehendLabels_ok_of_wt {elems : List Json} {key : String}
    {ks : List String} (hk : key ∈ ks)
    (h : ∀ x ∈ elems, wtElem x ks = true) :
    ∃ ls : List String,
      comprehendLabels elems key = Except.ok (ls.map Json.str) := by
  unfold comprehendLabels
  apply mapExcept_str_ok
  intro x hx
  have hmem := List.mem_filter.mp hx
  exact wtElem_get (h x hmem.1) (by simpa using hmem.2) hk

theorem wtDict_get {v : Json} (h : wtDictField v = true) (key : String) :
    ∃ w, pyGetAttr (orElseJson v (Json.obj [])) key (Json.str "") =
      Except.ok w := by
  by_cases hobj : ∃ kvs, v = Json.obj kvs
  · obtain ⟨kvs, rfl⟩ := hobj
    cases hf : isFalsy (Json.obj kvs) with
    | true => exact ⟨Json.str "", by rw [orElseJson_of_falsy hf]; rfl⟩
    | false => exact ⟨(objGet kvs key).getD (Json.str ""),
        by rw [orElseJson_of_truthy hf]; rfl⟩
  · have hf := wtDictField_falsy h (fun kvs he => hobj ⟨kvs, he⟩)
    exact ⟨Json.str "", by rw [orElseJson_of_falsy hf]; rfl⟩

theorem wtDict_items {v : Json} (h : wtDictField v = true) :
    ∃ prs, pyItems (orElseJson v (Json.obj [])) = Except.ok prs := by
  by_cases hobj : ∃ kvs, v = Json.obj kvs
  · obtain ⟨kvs, rfl⟩ := hobj
    cases hf : isFalsy (Json.obj kvs) with
    | true => exact ⟨[], by rw [orElseJson_of_falsy hf]; rfl⟩
    | false => exact ⟨kvs, by rw [orElseJson_of_truthy hf]; rfl⟩
  · have hf := wtDictField_falsy h (fun kvs he => hobj ⟨kvs, he⟩)
    exact ⟨[], by rw [orElseJson_of_falsy hf]; rfl⟩

/-- The left components of a `Forall₂` satisfy the relation with some right
component. -/
theorem forall₂_left_mem {α β : Type} {R : α → β → Prop} :
    ∀ {xs : List α} {ys : List β}, List.Forall₂ R xs ys →
      ∀ x ∈ xs, ∃ y, R x y
  | [], [], List.Forall₂.nil => by intro x hx; cases hx
  | _ :: _, _ :: _, List.Forall₂.cons h hs => by
    intro x hx
    rcases List.mem_cons.mp hx with rfl | hmem
    · exact ⟨_, h⟩
    · exact forall₂_left_mem hs x hmem

theorem dictInsert_of_not_mem (r : Row) {k : String} (v : Json)
    (h : ¬ k ∈ rowKeys r) : dictInsert r k v = r ++ [(k, v)] := by
  unfold dictInsert
  rw [if_neg]
  intro hany
  obtain ⟨kv, hkv, hbeq⟩ := List.any_eq_true.mp hany
  exact h (beq_iff_eq.mp hbeq ▸ List.mem_map_of_mem (fun kv => kv.1) hkv)

/-- With pairwise-distinct stat names that are all fresh for the accumulated
row, the stats loop appends exactly the guarded stat columns. -/
theorem foldl_applyStat_append :
    ∀ (l : List (String × Json)) (r : Row),
      (l.map Prod.fst).Nodup →
      (∀ p ∈ l, ¬ ("stat_" ++ p.1) ∈ rowKeys r) →
      l.foldl applyStat r = r ++ l.filterMap statPair
  | [], r, _, _ => by simp
  | p :: l, r, hnd, hfresh => by
    have hnd' : (l.map Prod.fst).Nodup := by
      rw [List.map_cons] at hnd
      exact hnd.of_cons
    have hne : ∀ q ∈ l, q.1 ≠ p.1 := by
      intro q hq he
      rw [List.map_cons] at hnd
      exact (List.nodup_cons.mp hnd).1 (he ▸ List.mem_map_of_mem Prod.fst hq)
    obtain ⟨n, d⟩ := p
    cases d with
    | obj sd =>
      cases hv : objGet sd "value" with
      | none =>
        have hstep : applyStat r (n, Json.obj sd) = r := by simp [applyStat, hv]
        have hsp : statPair (n, Json.obj sd) = none := by simp [statPair, hv]
        rw [List.foldl_cons, hstep, List.filterMap_cons, hsp]
        exact foldl_applyStat_append l r hnd'
          (fun q hq => hfresh q (List.mem_cons_of_mem _ hq))
      | some v =>
        have hstep : applyStat r (n, Json.obj sd) =
            r ++ [("stat_" ++ n, v)] := by
          have : applyStat r (n, Json.obj sd) =
              dictInsert r ("stat_" ++ n) v := by simp [applyStat, hv]
          rw [this, dictInsert_of_not_mem r v
            (hfresh (n, Json.obj sd) (List.mem_cons_self _ _))]
        have hsp : statPair (n, Json.obj sd) = some ("stat_" ++ n, v) := by
          simp [statPair, hv]
        rw [List.foldl_cons, hstep, List.filterMap_cons, hsp]
        rw [foldl_applyStat_append l (r ++ [("stat_" ++ n, v)]) hnd' ?_]
        · rw [List.append_assoc]; rfl
        · intro q hq hmem
          rw [rowKeys, List.map_append] at hmem
          rcases List.mem_append.mp hmem with hmem | hmem
          · exact hfresh q (List.mem_cons_of_mem _ hq) hmem
          · have : "stat_" ++ q.1 = "stat_" ++ n := by
              simpa using hmem
            exact hne q hq (statKey_inj this)
    | null =>
      rw [List.foldl_cons, List.filterMap_cons]
      exact foldl_applyStat_append l r hnd'
        (fun q hq => hfresh q (List.mem_cons_of_mem _ hq))
    | bool b =>
      rw [List.foldl_cons, List.filterMap_cons]
      exact foldl_applyStat_append l r hnd'
        (fun q hq => hfresh q (List.mem_cons_of_mem _ hq))
    | num m =>
      rw [List.foldl_cons, List.filterMap_cons]
      exact foldl_applyStat_append l r hnd'
        (fun q hq => hfresh q (List.mem_cons_of_mem _ hq))
    | str s =>
      rw [List.foldl_cons, List.filterMap_cons]
      exact foldl_applyStat_append l r hnd'
        (fun q hq => hfresh q (List.mem_cons_of_mem _ hq))
    | arr ys =>
      rw [List.foldl_cons, List.filterMap_cons]
      exact foldl_applyStat_append l r hnd'
        (fun q hq => hfresh q (List.mem_cons_of_mem _ hq))

theorem mem_foldl_append (rows : List Row) :
    ∀ (init : List String) (x : String),
      (x ∈ rows.foldl (fun acc r => acc ++ rowKeys r) init ↔
        x ∈ init ∨ ∃ r ∈ rows, x ∈ rowKeys r) := by
  induction rows with
  | nil => intro init x; simp
  | cons r rows ih =>
    intro init x
    rw [List.foldl_cons, ih (init ++ rowKeys r) x, List.mem_append]
    constructor
    · rintro ((h | h) | ⟨r', hr', h⟩)
      · exact Or.inl h
      · exact Or.inr ⟨r, List.mem_cons_self r rows, h⟩
      · exact Or.inr ⟨r', List.mem_cons_of_mem r hr', h⟩
    · rintro (h | ⟨r', hr', h⟩)
      · exact Or.inl (Or.inl h)
      · rcases List.mem_cons.mp hr' with rfl | hmem
        · exact Or.inl (Or.inr h)
        · exact Or.inr ⟨r', hmem, h⟩

theorem csvField_of_not_mem {r : Row} {k : String} (h : ¬ k ∈ rowKeys r) :
    csvField r k = Json.str "" := by
  unfold csvField
  rw [List.find?_eq_none.mpr]
  · rfl
  · intro kv hkv hbeq
    exact h (beq_iff_eq.mp hbeq ▸ List.mem_map_of_mem (fun kv => kv.1) hkv)

/-- Master lemma: on a well-typed record, extraction succeeds, each of the
three list-derived columns (alternate positions, ability labels, ability
images) is the `|`-join of its comprehended labels, and every
statically-known column is present. -/
theorem extract_ok_of_wt {kvs : List (String × Json)}
    {altElems abElems : List Json} {altLs abLs abIs : List String}
    (hw : wtPlayer (Json.obj kvs) = true)
    (ha : pyIter (orElseJson (getD0 kvs "alternatePositions") (Json.arr [])) =
      Except.ok altElems)
    (hl : comprehendLabels altElems "shortLabel" =
      Except.ok (altLs.map Json.str))
    (hb : pyIter (orElseJson (getD0 kvs "playerAbilities") (Json.arr [])) =
      Except.ok abElems)
    (hbl : comprehendLabels abElems "label" = Except.ok (abLs.map Json.str))
    (hbi : comprehendLabels abElems "imageUrl" =
      Except.ok (abIs.map Json.str)) :
    ∃ row, extract_player_data (Json.obj kvs) = Except.ok row ∧
      rowGet row "alternate_positions" =
        some (Json.str (String.intercalate "|" altLs)) ∧
      rowGet row "player_abilities_labels" =
        some (Json.str (String.intercalate "|" abLs)) ∧
      rowGet row "player_abilities_images" =
        some (Json.str (String.intercalate "|" abIs)) ∧
      (∀ c ∈ staticColumns, c ∈ rowKeys row) := by
  have hw' := hw
  simp only [wtPlayer, Bool.and_eq_true] at hw'
  obtain ⟨⟨⟨⟨⟨hAlt, hAb⟩, hNat⟩, hTeam⟩, hPos⟩, hStats⟩ := hw'
  obtain ⟨natL, hnatL⟩ := wtDict_get hNat "label"
  obtain ⟨natI, hnatI⟩ := wtDict_get hNat "imageUrl"
  obtain ⟨teamL, hteamL⟩ := wtDict_get hTeam "label"
  obtain ⟨teamI, hteamI⟩ := wtDict_get hTeam "imageUrl"
  obtain ⟨posS, hposS⟩ := wtDict_get hPos "shortLabel"
  obtain ⟨prs, hprs⟩ := wtDict_items hStats
  refine ⟨prs.foldl applyStat
      (baseRow kvs (String.intercalate "|" altLs) (String.intercalate "|" abLs)
        (String.intercalate "|" abIs) natL natI teamL teamI posS),
    ?_, ?_, ?_, ?_, ?_⟩
  · simp only [extract_player_data, ha, hl, hb, hbl, hbi,
      joinOrEmpty_map_str, hnatL, hnatI, hteamL, hteamI, hposS, hprs, ok_bind]
  · rw [rowGet_foldl_applyStat _ _ (by decide)]
    rfl
  · rw [rowGet_foldl_applyStat _ _ (by decide)]
    rfl
  · rw [rowGet_foldl_applyStat _ _ (by decide)]
    rfl
  · intro c hc
    apply mem_rowKeys_foldl_applyStat
    have hkeys : rowKeys (baseRow kvs (String.intercalate "|" altLs)
        (String.intercalate "|" abLs) (String.intercalate "|" abIs)
        natL natI teamL teamI posS) = staticColumns := rfl
    rw [hkeys]
    exact hc

/-- From well-typedness alone, the alternate-positions field iterates and
comprehends to some list of string labels. -/
theorem altpos_ok_of_wt {kvs : List (String × Json)}
    (hw : wtPlayer (Json.obj kvs) = true) :
    ∃ altElems altLs,
      pyIter (orElseJson (getD0 kvs "alternatePositions") (Json.arr [])) =
        Except.ok altElems ∧
      comprehendLabels altElems "shortLabel" =
        Except.ok (List.map Json.str altLs) := by
  have hw' := hw
  simp only [wtPlayer, Bool.and_eq_true] at hw'
  obtain ⟨⟨⟨⟨⟨hAlt, _⟩, _⟩, _⟩, _⟩, _⟩ := hw'
  obtain ⟨altElems, ha, haWt⟩ := wtListField_elems hAlt
  obtain ⟨altLs, hl⟩ := comprehendLabels_ok_of_wt
    (show "shortLabel" ∈ ["shortLabel"] by simp) haWt
  exact ⟨altElems, altLs, ha, hl⟩

/-- From well-typedness alone, the abilities field iterates and comprehends
to some lists of string labels and image strings. -/
theorem abilities_ok_of_wt {kvs : List (String × Json)}
    (hw : wtPlayer (Json.obj kvs) = true) :
    ∃ abElems abLs abIs,
      pyIter (orElseJson (getD0 kvs "playerAbilities") (Json.arr [])) =
        Except.ok abElems ∧
      comprehendLabels abElems "label" = Except.ok (List.map Json.str abLs) ∧
      comprehendLabels abElems "imageUrl" =
        Except.ok (List.map Json.str abIs) := by
  have hw' := hw
  simp only [wtPlayer, Bool.and_eq_true] at hw'
  obtain ⟨⟨⟨⟨⟨_, hAb⟩, _⟩, _⟩, _⟩, _⟩ := hw'
  obtain ⟨abElems, hb, hbWt⟩ := wtListField_elems hAb
  obtain ⟨abLs, hbl⟩ := comprehendLabels_ok_of_wt
    (show "label" ∈ ["label", "imageUrl"] by simp) hbWt
  obtain ⟨abIs, hbi⟩ := comprehendLabels_ok_of_wt
    (show "imageUrl" ∈ ["label", "imageUrl"] by simp) hbWt
  exact ⟨abElems, abLs, abIs, hb, hbl, hbi⟩

/-! ### Claim theorems: the flattener -/

/-- A well-typed raw record used to instantiate the flattener claims. -/
def wtProbe : Json := Json.obj
  [("id", Json.num 158023),
   ("overallRating", Json.num 91),
   ("firstName", Json.str "Lionel"),
   ("nationality", Json.obj [("label", Json.str "Argentina"),
     ("imageUrl", Json.str "arg.png")]),
   ("stats", Json.obj [("pace", Json.obj [("value", Json.num 90)])])]

/-- C3 (amended): for every raw record that is a key-value object whose
nested container fields (alternate positions, abilities, nationality, team,
position, stats), when present and truthy, have the container types the code
expects, `extract_player_data` raises no exception and returns a mapping that
contains every statically-known column; on the empty record every scalar
column falls back to null and every derived column to the empty string. The
original claim, which also promised this for type-malformed fields, is false
(see the counterexample): Python raises `AttributeError` when a nested field
that should be a dict or list is a truthy scalar. -/
theorem flatten_total_on_well_typed :
    (∀ p, wtPlayer p = true →
      ∃ row, extract_player_data p = Except.ok row ∧
        ∀ c ∈ staticColumns, c ∈ rowKeys row) ∧
    extract_player_data (Json.obj []) = Except.ok defaultRow := by
  refine ⟨?_, rfl⟩
  intro p hw
  cases p with
  | obj kvs =>
    obtain ⟨altElems, altLs, ha, hl⟩ := altpos_ok_of_wt hw
    obtain ⟨abElems, abLs, abIs, hb, hbl, hbi⟩ := abilities_ok_of_wt hw
    obtain ⟨row, hrow, _, _, _, hcols⟩ := extract_ok_of_wt hw ha hl hb hbl hbi
    exact ⟨row, hrow, hcols⟩
  | null => simp [wtPlayer] at hw
  | bool b => simp [wtPlayer] at hw
  | num m => simp [wtPlayer] at hw
  | str s => simp [wtPlayer] at hw
  | arr xs => simp [wtPlayer] at hw

/-- Witness for C3: a concrete well-typed record flattens successfully with
all static columns present. -/
theorem flatten_total_on_well_typed_witness :
    ∃ row, extract_player_data wtProbe = Except.ok row ∧
      ∀ c ∈ staticColumns, c ∈ rowKeys row :=
  flatten_total_on_well_typed.1 wtProbe (by rfl)

/-- C3 counterexample: on the record `{"nationality": "France"}` — a raw
record with one type-malformed field — `extract_player_data` raises
(`"France".get('label', '')` is an `AttributeError` in Python), so the claim
that flatten never raises on type-malformed fields is false. -/
theorem flatten_raises_on_string_nationality :
    extract_player_data (Json.obj [("nationality", Json.str "France")]) =
      Except.error "AttributeError: get" := rfl

/-- C4 (amended): for the nationality and team sub-objects the flattener
extracts both the label and the image URL into two flat columns; for the
position sub-object it extracts only the short label into a single column
(the position's human-readable label and image reference are discarded); and
when such a sub-object is missing all of these columns are the empty string.
The original claim — two columns (label and image) for each of position,
team and nationality — is refuted by the counterexample. -/
theorem nested_object_label_image_columns (ln li tn ti pl : Json) :
    (∃ row, extract_player_data (Json.obj
        [("nationality", Json.obj [("label", ln), ("imageUrl", li)]),
         ("team", Json.obj [("label", tn), ("imageUrl", ti)]),
         ("position", Json.obj [("shortLabel", pl)])]) = Except.ok row ∧
      rowGet row "nationality_label" = some ln ∧
      rowGet row "nationality_image_url" = some li ∧
      rowGet row "team_label" = some tn ∧
      rowGet row "team_image_url" = some ti ∧
      rowGet row "position_short_label" = some pl ∧
      rowGet row "position_label" = none ∧
      rowGet row "position_image_url" = none) ∧
    (rowGet (extractedRow (Json.obj [])) "nationality_label" =
        some (Json.str "") ∧
      rowGet (extractedRow (Json.obj [])) "nationality_image_url" =
        some (Json.str "") ∧
      rowGet (extractedRow (Json.obj [])) "team_label" = some (Json.str "") ∧
      rowGet (extractedRow (Json.obj [])) "team_image_url" =
        some (Json.str "") ∧
      rowGet (extractedRow (Json.obj [])) "position_short_label" =
        some (Json.str "")) :=
  ⟨⟨_, rfl, rfl, rfl, rfl, rfl, rfl, rfl, rfl⟩, rfl, rfl, rfl, rfl, rfl⟩

/-- A record whose position sub-object carries a short label, a label and an
image URL. -/
def posProbe : Json := Json.obj [("position", Json.obj
  [("shortLabel", Json.str "ST"), ("label", Json.str "Striker"),
   ("imageUrl", Json.str "pos-img-url")])]

/-- C4 counterexample: for a position sub-object carrying both a label and an
image URL, flattening succeeds but only the short label is extracted; no
output column holds the position's label `"Striker"` or its image reference
`"pos-img-url"`, so the flattener does not extract two (label, image) columns
for the position field. -/
theorem position_label_image_not_extracted :
    (extract_player_data posProbe).isOk = true ∧
    rowGet (extractedRow posProbe) "position_short_label" =
      some (Json.str "ST") ∧
    ((extractedRow posProbe).all (fun kv =>
      match kv.2 with
      | Json.str s => !(s == "Striker" || s == "pos-img-url")
      | _ => true)) = true :=
  ⟨rfl, rfl, rfl⟩

/-- C5 (amended): for a record whose `stats` field is a mapping with pairwise
distinct stat names, the flattener emits one `stat_<name>` column for exactly
those stat keys whose entry is itself a mapping containing a `value` key, in
stats order, with the entry's `value` as the column's value; stat keys whose
entry is not a mapping, or lacks `value`, contribute no column at all. The
original claim — one output column per stat key found in the mapping — is
refuted by the counterexample. -/
theorem stats_value_guarded_columns (skvs : List (String × Json))
    (hnd : (skvs.map Prod.fst).Nodup) :
    extract_player_data (Json.obj [("stats", Json.obj skvs)]) =
      Except.ok (defaultRow ++ skvs.filterMap statPair) := by
  cases skvs with
  | nil => rfl
  | cons p l =>
    have hshape : extract_player_data (Json.obj [("stats", Json.obj (p :: l))]) =
        Except.ok ((p :: l).foldl applyStat defaultRow) := rfl
    rw [hshape,
      foldl_applyStat_append (p :: l) defaultRow hnd
        (fun q _ hmem => statKey_not_static q.1 hmem)]

/-- Witness for C5: a stats mapping with one guarded entry (`pace`, a dict
with `value` 90) and one unguarded entry (`shooting`, a bare number) yields
exactly one stat column. -/
theorem stats_value_guarded_columns_witness :
    extract_player_data (Json.obj [("stats", Json.obj
      [("pace", Json.obj [("value", Json.num 90)]),
       ("shooting", Json.num 85)])]) =
      Except.ok (defaultRow ++ [("stat_pace", Json.num 90)]) :=
  stats_value_guarded_columns
    [("pace", Json.obj [("value", Json.num 90)]), ("shooting", Json.num 85)]
    (by decide)

/-- C5 counterexample: the record `{"stats": {"pace": 90}}` has a stats
mapping with the stat key `pace`, yet the flattened row has no `stat_pace`
column (the entry is not a dict with a `value` key), refuting "one output
column per stat key found in that mapping". -/
theorem stat_key_without_value_no_column :
    extract_player_data (Json.obj [("stats", Json.obj [("pace", Json.num 90)])]) =
      Except.ok defaultRow ∧
    rowGet (extractedRow (Json.obj [("stats", Json.obj [("pace", Json.num 90)])]))
      "stat_pace" = none :=
  ⟨rfl, rfl⟩

/-- C6: for a record whose list-of-object field — alternate positions or
abilities — is a list of N truthy (non-empty) objects each supplying a string
value for the extracted label attribute, the corresponding joined output
column (`alternate_positions` for the former; `player_abilities_labels` and
`player_abilities_images` for the latter) is the `|`-join of exactly those N
extracted values in source-list order (so it has exactly N `|`-separated
segments), and for N = 0 the column is the empty string, not a single empty
segment. -/
theorem list_fields_join_segments :
    (∀ (kvs : List (String × Json)) (xs : List Json) (labels : List String),
      wtPlayer (Json.obj kvs) = true →
      objGet kvs "alternatePositions" = some (Json.arr xs) →
      List.Forall₂ (fun x l => isFalsy x = false ∧
        pyGetAttr x "shortLabel" (Json.str "") = Except.ok (Json.str l))
        xs labels →
      ∃ row, extract_player_data (Json.obj kvs) = Except.ok row ∧
        rowGet row "alternate_positions" =
          some (Json.str (String.intercalate "|" labels)) ∧
        labels.length = xs.length ∧
        (xs = [] → String.intercalate "|" labels = "")) ∧
    (∀ (kvs : List (String × Json)) (xs : List Json)
        (labels images : List String),
      wtPlayer (Json.obj kvs) = true →
      objGet kvs "playerAbilities" = some (Json.arr xs) →
      List.Forall₂ (fun x l => isFalsy x = false ∧
        pyGetAttr x "label" (Json.str "") = Except.ok (Json.str l))
        xs labels →
      List.Forall₂ (fun x u =>
        pyGetAttr x "imageUrl" (Json.str "") = Except.ok (Json.str u))
        xs images →
      ∃ row, extract_player_data (Json.obj kvs) = Except.ok row ∧
        rowGet row "player_abilities_labels" =
          some (Json.str (String.intercalate "|" labels)) ∧
        rowGet row "player_abilities_images" =
          some (Json.str (String.intercalate "|" images)) ∧
        labels.length = xs.length ∧
        images.length = xs.length ∧
        (xs = [] → String.intercalate "|" labels = "" ∧
          String.intercalate "|" images = "")) := by
  constructor
  · intro kvs xs labels hw hget hF
    obtain ⟨abElems, abLs, abIs, hb, hbl, hbi⟩ := abilities_ok_of_wt hw
    have hgd : getD0 kvs "alternatePositions" = Json.arr xs := by
      unfold getD0; rw [hget]; rfl
    have ha : pyIter (orElseJson (getD0 kvs "alternatePositions")
        (Json.arr [])) = Except.ok xs := by
      rw [hgd]; exact pyIter_orElse_arr xs
    have hfil : xs.filter (fun x => !isFalsy x) = xs :=
      List.filter_eq_self.mpr (fun x hx => by
        obtain ⟨l, hxl⟩ := forall₂_left_mem hF x hx
        simp [hxl.1])
    have hl : comprehendLabels xs "shortLabel" =
        Except.ok (labels.map Json.str) := by
      unfold comprehendLabels
      rw [hfil]
      exact mapExcept_ok_of_forall₂ (hF.imp (fun _ _ h => h.2))
    obtain ⟨row, hrow, halt, _, _, _⟩ := extract_ok_of_wt hw ha hl hb hbl hbi
    refine ⟨row, hrow, halt, hF.length_eq.symm, ?_⟩
    intro hnil
    subst hnil
    cases hF
    rfl
  · intro kvs xs labels images hw hget hFl hFi
    obtain ⟨altElems, altLs, ha, hl⟩ := altpos_ok_of_wt hw
    have hgd : getD0 kvs "playerAbilities" = Json.arr xs := by
      unfold getD0; rw [hget]; rfl
    have hb : pyIter (orElseJson (getD0 kvs "playerAbilities")
        (Json.arr [])) = Except.ok xs := by
      rw [hgd]; exact pyIter_orElse_arr xs
    have hfil : xs.filter (fun x => !isFalsy x) = xs :=
      List.filter_eq_self.mpr (fun x hx => by
        obtain ⟨l, hxl⟩ := forall₂_left_mem hFl x hx
        simp [hxl.1])
    have hbl : comprehendLabels xs "label" =
        Except.ok (labels.map Json.str) := by
      unfold comprehendLabels
      rw [hfil]
      exact mapExcept_ok_of_forall₂ (hFl.imp (fun _ _ h => h.2))
    have hbi : comprehendLabels xs "imageUrl" =
        Except.ok (images.map Json.str) := by
      unfold comprehendLabels
      rw [hfil]
      exact mapExcept_ok_of_forall₂ hFi
    obtain ⟨row, hrow, _, hlab, himg, _⟩ := extract_ok_of_wt hw ha hl hb hbl hbi
    refine ⟨row, hrow, hlab, himg, hFl.length_eq.symm, hFi.length_eq.symm, ?_⟩
    intro hnil
    subst hnil
    cases hFl
    cases hFi
    exact ⟨rfl, rfl⟩

/-- Witness for C6: two truthy alternate-position objects with short labels
CM and CAM produce the two-segment column `CM|CAM`, and two truthy ability
objects produce the two-segment columns `Finesse Shot|Power Header` and
`i1|i2`. -/
theorem list_fields_join_segments_witness :
    (∃ row, extract_player_data (Json.obj [("alternatePositions", Json.arr
        [Json.obj [("shortLabel", Json.str "CM")],
         Json.obj [("shortLabel", Json.str "CAM")]])]) = Except.ok row ∧
      rowGet row "alternate_positions" =
        some (Json.str (String.intercalate "|" ["CM", "CAM"])) ∧
      (["CM", "CAM"] : List String).length =
        ([Json.obj [("shortLabel", Json.str "CM")],
          Json.obj [("shortLabel", Json.str "CAM")]] : List Json).length ∧
      (([Json.obj [("shortLabel", Json.str "CM")],
         Json.obj [("shortLabel", Json.str "CAM")]] : List Json) = [] →
        String.intercalate "|" ["CM", "CAM"] = "")) ∧
    (∃ row, extract_player_data (Json.obj [("playerAbilities", Json.arr
        [Json.obj [("label", Json.str "Finesse Shot"),
          ("imageUrl", Json.str "i1")],
         Json.obj [("label", Json.str "Power Header"),
          ("imageUrl", Json.str "i2")]])]) = Except.ok row ∧
      rowGet row "player_abilities_labels" =
        some (Json.str (String.intercalate "|" ["Finesse Shot",
          "Power Header"])) ∧
      rowGet row "player_abilities_images" =
        some (Json.str (String.intercalate "|" ["i1", "i2"])) ∧
      (["Finesse Shot", "Power Header"] : List String).length =
        ([Json.obj [("label", Json.str "Finesse Shot"),
            ("imageUrl", Json.str "i1")],
          Json.obj [("label", Json.str "Power Header"),
            ("imageUrl", Json.str "i2")]] : List Json).length ∧
      (["i1", "i2"] : List String).length =
        ([Json.obj [("label", Json.str "Finesse Shot"),
            ("imageUrl", Json.str "i1")],
          Json.obj [("label", Json.str "Power Header"),
            ("imageUrl", Json.str "i2")]] : List Json).length ∧
      (([Json.obj [("label", Json.str "Finesse Shot"),
           ("imageUrl", Json.str "i1")],
         Json.obj [("label", Json.str "Power Header"),
           ("imageUrl", Json.str "i2")]] : List Json) = [] →
        String.intercalate "|" ["Finesse Shot", "Power Header"] = "" ∧
        String.intercalate "|" ["i1", "i2"] = "")) :=
  ⟨list_fields_join_segments.1
    [("alternatePositions", Json.arr
      [Json.obj [("shortLabel", Json.str "CM")],
       Json.obj [("shortLabel", Json.str "CAM")]])]
    [Json.obj [("shortLabel", Json.str "CM")],
     Json.obj [("shortLabel", Json.str "CAM")]]
    ["CM", "CAM"] (by rfl) (by rfl)
    (List.Forall₂.cons ⟨rfl, rfl⟩ (List.Forall₂.cons ⟨rfl, rfl⟩
      List.Forall₂.nil)),
   list_fields_join_segments.2
    [("playerAbilities", Json.arr
      [Json.obj [("label", Json.str "Finesse Shot"),
        ("imageUrl", Json.str "i1")],
       Json.obj [("label", Json.str "Power Header"),
        ("imageUrl", Json.str "i2")]])]
    [Json.obj [("label", Json.str "Finesse Shot"),
      ("imageUrl", Json.str "i1")],
     Json.obj [("label", Json.str "Power Header"),
      ("imageUrl", Json.str "i2")]]
    ["Finesse Shot", "Power Header"] ["i1", "i2"] (by rfl) (by rfl)
    (List.Forall₂.cons ⟨rfl, rfl⟩ (List.Forall₂.cons ⟨rfl, rfl⟩
      List.Forall₂.nil))
    (List.Forall₂.cons rfl (List.Forall₂.cons rfl List.Forall₂.nil))⟩

/-- C10: falsy elements (such as null) inside the known list-of-object
fields — alternate positions and abilities — are skipped entirely by the
flattener: each joined column is built only from the truthy elements, so its
segment count equals the number of truthy elements and can be strictly
smaller than the source list's length. The closed conjuncts show 3-element
lists with a null in the middle yielding the two-segment columns `LM|RM`,
`Chip Shot|Trivela` and `u1|u2`. -/
theorem falsy_list_elements_skipped :
    (∀ (kvs : List (String × Json)) (xs : List Json) (labels : List String),
      wtPlayer (Json.obj kvs) = true →
      objGet kvs "alternatePositions" = some (Json.arr xs) →
      List.Forall₂ (fun x l =>
        pyGetAttr x "shortLabel" (Json.str "") = Except.ok (Json.str l))
        (xs.filter (fun x => !isFalsy x)) labels →
      ∃ row, extract_player_data (Json.obj kvs) = Except.ok row ∧
        rowGet row "alternate_positions" =
          some (Json.str (String.intercalate "|" labels)) ∧
        labels.length = (xs.filter (fun x => !isFalsy x)).length) ∧
    (∀ (kvs : List (String × Json)) (xs : List Json)
        (labels images : List String),
      wtPlayer (Json.obj kvs) = true →
      objGet kvs "playerAbilities" = some (Json.arr xs) →
      List.Forall₂ (fun x l =>
        pyGetAttr x "label" (Json.str "") = Except.ok (Json.str l))
        (xs.filter (fun x => !isFalsy x)) labels →
      List.Forall₂ (fun x u =>
        pyGetAttr x "imageUrl" (Json.str "") = Except.ok (Json.str u))
        (xs.filter (fun x => !isFalsy x)) images →
      ∃ row, extract_player_data (Json.obj kvs) = Except.ok row ∧
        rowGet row "player_abilities_labels" =
          some (Json.str (String.intercalate "|" labels)) ∧
        rowGet row "player_abilities_images" =
          some (Json.str (String.intercalate "|" images)) ∧
        labels.length = (xs.filter (fun x => !isFalsy x)).length ∧
        images.length = (xs.filter (fun x => !isFalsy x)).length) ∧
    rowGet (extractedRow (Json.obj [("alternatePositions", Json.arr
      [Json.obj [("shortLabel", Json.str "LM")], Json.null,
       Json.obj [("shortLabel", Json.str "RM")]])])) "alternate_positions" =
      some (Json.str "LM|RM") ∧
    rowGet (extractedRow (Json.obj [("playerAbilities", Json.arr
      [Json.obj [("label", Json.str "Chip Shot"), ("imageUrl", Json.str "u1")],
       Json.null,
       Json.obj [("label", Json.str "Trivela"),
        ("imageUrl", Json.str "u2")]])])) "player_abilities_labels" =
      some (Json.str "Chip Shot|Trivela") ∧
    rowGet (extractedRow (Json.obj [("playerAbilities", Json.arr
      [Json.obj [("label", Json.str "Chip Shot"), ("imageUrl", Json.str "u1")],
       Json.null,
       Json.obj [("label", Json.str "Trivela"),
        ("imageUrl", Json.str "u2")]])])) "player_abilities_images" =
      some (Json.str "u1|u2") := by
  refine ⟨?_, ?_, rfl, rfl, rfl⟩
  · intro kvs xs labels hw hget hF
    obtain ⟨abElems, abLs, abIs, hb, hbl, hbi⟩ := abilities_ok_of_wt hw
    have hgd : getD0 kvs "alternatePositions" = Json.arr xs := by
      unfold getD0; rw [hget]; rfl
    have ha : pyIter (orElseJson (getD0 kvs "alternatePositions")
        (Json.arr [])) = Except.ok xs := by
      rw [hgd]; exact pyIter_orElse_arr xs
    have hl : comprehendLabels xs "shortLabel" =
        Except.ok (labels.map Json.str) := by
      unfold comprehendLabels
      exact mapExcept_ok_of_forall₂ hF
    obtain ⟨row, hrow, halt, _, _, _⟩ := extract_ok_of_wt hw ha hl hb hbl hbi
    exact ⟨row, hrow, halt, hF.length_eq.symm⟩
  · intro kvs xs labels images hw hget hFl hFi
    obtain ⟨altElems, altLs, ha, hl⟩ := altpos_ok_of_wt hw
    have hgd : getD0 kvs "playerAbilities" = Json.arr xs := by
      unfold getD0; rw [hget]; rfl
    have hb : pyIter (orElseJson (getD0 kvs "playerAbilities")
        (Json.arr [])) = Except.ok xs := by
      rw [hgd]; exact pyIter_orElse_arr xs
    have hbl : comprehendLabels xs "label" =
        Except.ok (labels.map Json.str) := by
      unfold comprehendLabels
      exact mapExcept_ok_of_forall₂ hFl
    have hbi : comprehendLabels xs "imageUrl" =
        Except.ok (images.map Json.str) := by
      unfold comprehendLabels
      exact mapExcept_ok_of_forall₂ hFi
    obtain ⟨row, hrow, _, hlab, himg, _⟩ := extract_ok_of_wt hw ha hl hb hbl hbi
    exact ⟨row, hrow, hlab, himg, hFl.length_eq.symm, hFi.length_eq.symm⟩

/-- Witness for C10: the alternate-positions list `[{LM}, null, {RM}]` and
the abilities list `[{Chip Shot, u1}, null, {Trivela, u2}]` each have 3
elements but only 2 truthy ones; every joined column has exactly 2
segments. -/
theorem falsy_list_elements_skipped_witness :
    (∃ row, extract_player_data (Json.obj [("alternatePositions", Json.arr
        [Json.obj [("shortLabel", Json.str "LM")], Json.null,
         Json.obj [("shortLabel", Json.str "RM")]])]) = Except.ok row ∧
      rowGet row "alternate_positions" =
        some (Json.str (String.intercalate "|" ["LM", "RM"])) ∧
      (["LM", "RM"] : List String).length =
        (([Json.obj [("shortLabel", Json.str "LM")], Json.null,
           Json.obj [("shortLabel", Json.str "RM")]] : List Json).filter
          (fun x => !isFalsy x)).length) ∧
    (∃ row, extract_player_data (Json.obj [("playerAbilities", Json.arr
        [Json.obj [("label", Json.str "Chip Shot"),
          ("imageUrl", Json.str "u1")], Json.null,
         Json.obj [("label", Json.str "Trivela"),
          ("imageUrl", Json.str "u2")]])]) = Except.ok row ∧
      rowGet row "player_abilities_labels" =
        some (Json.str (String.intercalate "|" ["Chip Shot", "Trivela"])) ∧
      rowGet row "player_abilities_images" =
        some (Json.str (String.intercalate "|" ["u1", "u2"])) ∧
      (["Chip Shot", "Trivela"] : List String).length =
        (([Json.obj [("label", Json.str "Chip Shot"),
            ("imageUrl", Json.str "u1")], Json.null,
           Json.obj [("label", Json.str "Trivela"),
            ("imageUrl", Json.str "u2")]] : List Json).filter
          (fun x => !isFalsy x)).length ∧
      (["u1", "u2"] : List String).length =
        (([Json.obj [("label", Json.str "Chip Shot"),
            ("imageUrl", Json.str "u1")], Json.null,
           Json.obj [("label", Json.str "Trivela"),
            ("imageUrl", Json.str "u2")]] : List Json).filter
          (fun x => !isFalsy x)).length) :=
  ⟨falsy_list_elements_skipped.1
    [("alternatePositions", Json.arr
      [Json.obj [("shortLabel", Json.str "LM")], Json.null,
       Json.obj [("shortLabel", Json.str "RM")]])]
    [Json.obj [("shortLabel", Json.str "LM")], Json.null,
     Json.obj [("shortLabel", Json.str "RM")]]
    ["LM", "RM"] (by rfl) (by rfl)
    (by
      show List.Forall₂ _
        ([Json.obj [("shortLabel", Json.str "LM")], Json.null,
          Json.obj [("shortLabel", Json.str "RM")]].filter
            (fun x => !isFalsy x)) _
      have hfil : ([Json.obj [("shortLabel", Json.str "LM")], Json.null,
          Json.obj [("shortLabel", Json.str "RM")]].filter
            (fun x => !isFalsy x)) =
          [Json.obj [("shortLabel", Json.str "LM")],
           Json.obj [("shortLabel", Json.str "RM")]] := rfl
      rw [hfil]
      exact List.Forall₂.cons rfl (List.Forall₂.cons rfl List.Forall₂.nil)),
   falsy_list_elements_skipped.2.1
    [("playerAbilities", Json.arr
      [Json.obj [("label", Json.str "Chip Shot"),
        ("imageUrl", Json.str "u1")], Json.null,
       Json.obj [("label", Json.str "Trivela"),
        ("imageUrl", Json.str "u2")]])]
    [Json.obj [("label", Json.str "Chip Shot"),
      ("imageUrl", Json.str "u1")], Json.null,
     Json.obj [("label", Json.str "Trivela"),
      ("imageUrl", Json.str "u2")]]
    ["Chip Shot", "Trivela"] ["u1", "u2"] (by rfl) (by rfl)
    (by
      show List.Forall₂ _
        ([Json.obj [("label", Json.str "Chip Shot"),
           ("imageUrl", Json.str "u1")], Json.null,
          Json.obj [("label", Json.str "Trivela"),
           ("imageUrl", Json.str "u2")]].filter
            (fun x => !isFalsy x)) _
      have hfil : ([Json.obj [("label", Json.str "Chip Shot"),
           ("imageUrl", Json.str "u1")], Json.null,
          Json.obj [("label", Json.str "Trivela"),
           ("imageUrl", Json.str "u2")]].filter
            (fun x => !isFalsy x)) =
          [Json.obj [("label", Json.str "Chip Shot"),
            ("imageUrl", Json.str "u1")],
           Json.obj [("label", Json.str "Trivela"),
            ("imageUrl", Json.str "u2")]] := rfl
      rw [hfil]
      exact List.Forall₂.cons rfl (List.Forall₂.cons rfl List.Forall₂.nil))
    (by
      show List.Forall₂ _
        ([Json.obj [("label", Json.str "Chip Shot"),
           ("imageUrl", Json.str "u1")], Json.null,
          Json.obj [("label", Json.str "Trivela"),
           ("imageUrl", Json.str "u2")]].filter
            (fun x => !isFalsy x)) _
      have hfil : ([Json.obj [("label", Json.str "Chip Shot"),
           ("imageUrl", Json.str "u1")], Json.null,
          Json.obj [("label", Json.str "Trivela"),
           ("imageUrl", Json.str "u2")]].filter
            (fun x => !isFalsy x)) =
          [Json.obj [("label", Json.str "Chip Shot"),
            ("imageUrl", Json.str "u1")],
           Json.obj [("label", Json.str "Trivela"),
            ("imageUrl", Json.str "u2")]] := rfl
      rw [hfil]
      exact List.Forall₂.cons rfl (List.Forall₂.cons rfl List.Forall₂.nil))⟩

/-- Unfolding one iteration of the pagination loop. -/
theorem fetch_all_cons (r : Option Json) (rest : List (Option Json))
    (acc : List Row) (n : Nat) :
    fetch_all_players (r :: rest) acc n =
      match pageStep r with
      | PageStep.fetchFail => Except.ok ⟨acc, n + 1, true⟩
      | PageStep.noItems => Except.ok ⟨acc, n + 1, false⟩
      | PageStep.lastPage rows => Except.ok ⟨acc ++ rows, n + 1, false⟩
      | PageStep.fullPage rows => fetch_all_players rest (acc ++ rows) (n + 1)
      | PageStep.errorStep e => Except.error e := rfl

/-! ### Claim theorems: the writer -/

/-- C1: `save_to_csv` writes no file at all for the empty row set; for a
non-empty row set it writes a file whose header is the lexicographically
sorted, duplicate-free union of the key sets of all rows, followed by exactly
one record per row in row-set order under that fixed column ordering, where a
row lacking a header column contributes an empty field in that column's
position. -/
theorem save_to_csv_sorted_union_header :
    save_to_csv [] = none ∧
    ∀ rows : List Row, rows ≠ [] →
      ∃ hdr recs, save_to_csv rows = some (hdr, recs) ∧
        List.Sorted (fun a b => a ≤ b) hdr ∧
        hdr.Nodup ∧
        (∀ k, k ∈ hdr ↔ ∃ r ∈ rows, k ∈ rowKeys r) ∧
        recs.length = rows.length ∧
        recs = rows.map (fun r => hdr.map (fun k => csvField r k)) ∧
        (∀ r ∈ rows, ∀ k, ¬ k ∈ rowKeys r → csvField r k = Json.str "") := by
  refine ⟨rfl, ?_⟩
  intro rows hne
  have hemp : rows.isEmpty = false := by
    cases rows with
    | nil => exact absurd rfl hne
    | cons r rs => rfl
  have hsave : save_to_csv rows = some (fieldnames rows,
      rows.map (fun r => (fieldnames rows).map (fun k => csvField r k))) := by
    unfold save_to_csv
    rw [if_neg (by rw [hemp]; exact Bool.false_ne_true)]
  refine ⟨fieldnames rows, _, hsave, ?_, ?_, ?_, by rw [List.length_map], rfl,
    fun r _ k hk => csvField_of_not_mem hk⟩
  · exact List.sorted_insertionSort _ (all_fields rows)
  · exact (List.perm_insertionSort _ (all_fields rows)).nodup_iff.mpr
      (List.nodup_dedup _)
  · intro k
    unfold fieldnames
    rw [(List.perm_insertionSort _ (all_fields rows)).mem_iff]
    unfold all_fields
    rw [List.mem_dedup, mem_foldl_append rows [] k]
    simp

/-- Witness for C1: two one-column rows with keys `b` then `a` produce the
sorted header `[a, b]` and one aligned record per row. -/
theorem save_to_csv_sorted_union_header_witness :
    ∃ hdr recs,
      save_to_csv [[("b", Json.null)], [("a", Json.num 1)]] =
        some (hdr, recs) ∧
      List.Sorted (fun a b => a ≤ b) hdr ∧
      hdr.Nodup ∧
      (∀ k, k ∈ hdr ↔ ∃ r ∈ ([[("b", Json.null)], [("a", Json.num 1)]] :
        List Row), k ∈ rowKeys r) ∧
      recs.length = ([[("b", Json.null)], [("a", Json.num 1)]] :
        List Row).length ∧
      recs = ([[("b", Json.null)], [("a", Json.num 1)]] : List Row).map
        (fun r => hdr.map (fun k => csvField r k)) ∧
      (∀ r ∈ ([[("b", Json.null)], [("a", Json.num 1)]] : List Row),
        ∀ k, ¬ k ∈ rowKeys r → csvField r k = Json.str "") :=
  save_to_csv_sorted_union_header.2 [[("b", Json.null)], [("a", Json.num 1)]]
    (List.cons_ne_nil _ _)

/-! ### Claim theorems: the fetcher -/

/-- C2: whenever a fetched page is a truthy dict whose record list is shorter
than the requested limit of 100, the loop flattens and appends all of that
page's records and terminates without issuing another fetch (the result does
not depend on any later upstream responses); in particular, for two pages of
100 records followed by a page of 37 records, exactly 3 fetches occur — no
4th fetch regardless of what the upstream would serve next — and the row set
ends with exactly 237 rows. -/
theorem short_page_ends_pagination :
    (∀ (kvs : List (String × Json)) (ps : List Json) (rows : List Row)
        (rest : List (Option Json)) (acc : List Row) (n : Nat),
        isFalsy (Json.obj kvs) = false →
        (objGet kvs "items").getD (Json.arr []) = Json.arr ps →
        mapExcept extract_player_data ps = Except.ok rows →
        ps.length < limit →
        fetch_all_players (some (Json.obj kvs) :: rest) acc n =
          Except.ok ⟨acc ++ rows, n + 1, false⟩) ∧
    (∀ rest : List (Option Json),
        run_fetch (some (mkPage 100) :: some (mkPage 100) ::
            some (mkPage 37) :: rest) =
          Except.ok ⟨List.replicate 237 defaultRow, 3, false⟩ ∧
        (List.replicate 237 defaultRow).length = 237) := by
  constructor
  · intro kvs ps rows rest acc n hd hitems hmap hlen
    cases ps with
    | nil =>
      have hrows : rows = [] := by
        have h0 := hmap
        rw [mapExcept_nil] at h0
        exact (Except.ok.inj h0).symm
      have hke : kvs.isEmpty = false := by simpa [isFalsy] using hd
      have hstep : pageStep (some (Json.obj kvs)) = PageStep.noItems := by
        simp [pageStep, hke, hitems, isFalsy]
      rw [fetch_all_cons, hstep, hrows, List.append_nil]
    | cons p ps' =>
      have hke : kvs.isEmpty = false := by simpa [isFalsy] using hd
      rw [List.length_cons] at hlen
      have hstep : pageStep (some (Json.obj kvs)) =
          PageStep.lastPage rows := by
        simp [pageStep, hke, hitems, isFalsy, pyIter, hmap, hlen]
      rw [fetch_all_cons, hstep]
  · intro rest
    exact ⟨rfl, rfl⟩

/-- Witness for C2: a single page holding one record ends the crawl after one
fetch with that record's row appended. -/
theorem short_page_ends_pagination_witness :
    fetch_all_players [some (Json.obj [("items", Json.arr [Json.obj []])])]
      [] 0 = Except.ok ⟨[defaultRow], 1, false⟩ :=
  short_page_ends_pagination.1 [("items", Json.arr [Json.obj []])]
    [Json.obj []] [defaultRow] [] [] 0 rfl rfl rfl (by decide)

/-- C7: if the very first fetch fails (`fetch_page` returns `None` for a
transport error, a non-success status — which `raise_for_status` turns into a
transport error — or a malformed body), the pagination loop stops after that
single fetch with zero rows collected, the "Failed to fetch data" diagnostic
is produced, and `save_to_csv` writes no output file. -/
theorem first_fetch_failure_no_output (rest : List (Option Json)) :
    fetch_page HttpOutcome.transportError = none ∧
    fetch_page HttpOutcome.parseError = none ∧
    run (none :: rest) = Except.ok (⟨[], 1, true⟩, none) :=
  ⟨rfl, rfl, rfl⟩

/-- C9: a page whose HTTP request succeeds and whose body parses to the falsy
value `{}` is passed through by `fetch_page` as a successfully decoded body,
yet the loop's `if not data` test halts exactly as for a fetch failure: no
rows are appended, the failure diagnostic is emitted, and the loop result is
literally the same as if `fetch_page` had returned `None`. -/
theorem falsy_body_treated_as_fetch_failure (rest : List (Option Json))
    (acc : List Row) (n : Nat) :
    fetch_page (HttpOutcome.parsed (Json.obj [])) = some (Json.obj []) ∧
    fetch_all_players (fetch_page (HttpOutcome.parsed (Json.obj [])) :: rest)
      acc n = Except.ok ⟨acc, n + 1, true⟩ ∧
    fetch_all_players (fetch_page (HttpOutcome.parsed (Json.obj [])) :: rest)
      acc n = fetch_all_players (none :: rest) acc n :=
  ⟨rfl, rfl, rfl⟩

/-- C8: if the i-th upstream response is a terminal page — a failed fetch, a
falsy or non-dict body, an empty record list, a short page (fewer than the
100-record limit), or a page whose processing raises — then the pagination
loop's result only depends on the first i+1 responses (it never continues
past that page), and when the loop ends normally it has issued at most i+1
fetches. `pageStep r ≠ fullPage` is exactly this terminal condition: the loop
recurses only on a full page. -/
theorem pagination_stops_at_first_terminal_page :
    ∀ (i : Nat) (resps : List (Option Json)) (r : Option Json)
      (acc : List Row) (n : Nat),
      resps.get? i = some r →
      (∀ rows, pageStep r ≠ PageStep.fullPage rows) →
      fetch_all_players resps acc n =
        fetch_all_players (resps.take (i + 1)) acc n ∧
      (∀ st, fetch_all_players resps acc n = Except.ok st →
        st.fetches ≤ n + i + 1) := by
  intro i
  induction i with
  | zero =>
    intro resps r acc n hget hterm
    cases resps with
    | nil => exact absurd hget (by simp)
    | cons r0 rest =>
      have hr : r0 = r := by
        have h0 := hget
        rw [List.get?_cons_zero] at h0
        exact Option.some.inj h0
      subst hr
      rw [List.take_succ_cons, fetch_all_cons, fetch_all_cons]
      cases hps : pageStep r0 with
      | fetchFail => exact ⟨rfl, fun st hst => by
          cases hst; show n + 1 ≤ n + 0 + 1; omega⟩
      | noItems => exact ⟨rfl, fun st hst => by
          cases hst; show n + 1 ≤ n + 0 + 1; omega⟩
      | lastPage rows => exact ⟨rfl, fun st hst => by
          cases hst; show n + 1 ≤ n + 0 + 1; omega⟩
      | fullPage rows => exact absurd hps (hterm rows)
      | errorStep e => exact ⟨rfl, fun st hst => by cases hst⟩
  | succ i ih =>
    intro resps r acc n hget hterm
    cases resps with
    | nil => exact absurd hget (by simp)
    | cons r0 rest =>
      have hget' : rest.get? i = some r := by
        have h0 := hget
        rw [List.get?_cons_succ] at h0
        exact h0
      rw [List.take_succ_cons, fetch_all_cons, fetch_all_cons]
      cases hps : pageStep r0 with
      | fetchFail => exact ⟨rfl, fun st hst => by
          cases hst; show n + 1 ≤ n + (i + 1) + 1; omega⟩
      | noItems => exact ⟨rfl, fun st hst => by
          cases hst; show n + 1 ≤ n + (i + 1) + 1; omega⟩
      | lastPage rows => exact ⟨rfl, fun st hst => by
          cases hst; show n + 1 ≤ n + (i + 1) + 1; omega⟩
      | errorStep e => exact ⟨rfl, fun st hst => by cases hst⟩
      | fullPage rows =>
        obtain ⟨hih1, hih2⟩ := ih rest r (acc ++ rows) (n + 1) hget' hterm
        exact ⟨hih1, fun st hst => by
          have := hih2 st hst
          omega⟩

/-- Witness for C8: a failing first response ([none]) is terminal at index 0;
the loop's result equals the result on the one-response prefix and makes at
most one fetch. -/
theorem pagination_stops_at_first_terminal_page_witness :
    fetch_all_players [none] [] 0 =
      fetch_all_players (List.take 1 [none]) [] 0 ∧
    (∀ st, fetch_all_players [none] [] 0 = Except.ok st →
      st.fetches ≤ 0 + 0 + 1) :=
  pagination_stops_at_first_terminal_page 0 [none] none [] 0 rfl
    (fun rows h => PageStep.noConfusion h)
